import Mathlib

/-!
Shallow embedding of the dev-server control plane of the bun-monorepo
repository: port allocation (`startServer` in
`packages/new/templates/web/src/dev/serve-with-control.ts`), peer discovery
(`discoverRunningServers`), the control-socket command dispatcher, base-port
resolution, and the multi-workspace orchestrator (`scripts/dev-tui.ts`),
together with theorems about the control protocol these functions implement.

Asynchronous JavaScript is embedded by making the event order explicit: each
handler is a pure function from its inputs and the supervisor state to the
ordered list of observable events (socket writes, commands sent to peers,
server stop/start, process exit) it performs, with `async` functions split at
their first `await` exactly as the event loop interleaves them.
-/

namespace DevControl

/-- `DEFAULT_PORT` from serve-with-control.ts line 9. -/
def DEFAULT_PORT : Nat := 3000

/-- `MAX_PORT` from serve-with-control.ts line 10. -/
def MAX_PORT : Nat := 65535

/-- JavaScript's `String.prototype.trim`, restricted to the ASCII whitespace
that occurs on this wire protocol, executed structurally over the character
list of the string. -/
def jsTrim (s : String) : String :=
  ⟨((s.data.dropWhile Char.isWhitespace).reverse.dropWhile Char.isWhitespace).reverse⟩

/-- A thrown JavaScript value as inspected by `isAddressInUse`:
either an `Error`-like object carrying an optional `code` property and a
string `message`, or a non-object throw rendered by `String(error)`. -/
inductive JsError where
  | err (code : Option String) (message : String)
  | nonObject (display : String)
deriving DecidableEq

/-- `message.includes(pat)`: the pattern occurs in the string when some tail
of the character list starts with it. -/
def strIncludes (s pat : String) : Bool :=
  s.data.tails.any (fun t => pat.data.isPrefixOf t)

/-- `entry.endsWith(pat)` over character lists. -/
def strEndsWith (s pat : String) : Bool := pat.data.isSuffixOf s.data

/-- `isAddressInUse` (serve-with-control.ts lines 22-29): a non-object throw
is never address-in-use; an object is, when its `code` is `EADDRINUSE` or its
string `message` contains `EADDRINUSE`. -/
def isAddressInUse : JsError → Bool
  | .err code message => code == some "EADDRINUSE" || strIncludes message "EADDRINUSE"
  | .nonObject _ => false

/-- `error instanceof Error ? error.message : String(error)`
(serve-with-control.ts line 264). -/
def errText : JsError → String
  | .err _ message => message
  | .nonObject display => display

/-- The opaque handle returned by `Bun.serve`: the bound port and the
server's URL (the only fields the control plane reads). -/
structure ServerHandle where
  port : Nat
  url : String
deriving DecidableEq

/-- Outcome of `startServer`: either the exception rethrown out of a bind
failure that is not address-in-use, or the distinct range-exhaustion error
`new Error(`No available port found starting from ${startPort}`)`. -/
inductive StartError where
  | rethrown (e : JsError)
  | noAvailablePort (startPort : Nat)
deriving DecidableEq

/-- The `message` of a `StartError` as a JavaScript caller observes it. -/
def StartError.renderMessage : StartError → String
  | .rethrown e => errText e
  | .noAvailablePort p => "No available port found starting from " ++ toString p

/-- The `while (port <= MAX_PORT)` loop of `startServer`
(serve-with-control.ts lines 63-77), with the bind attempt `serve({...config,
port})` abstracted as `bind : Nat → Except JsError ServerHandle`. The loop is
driven structurally by `fuel`; `startServer` supplies `MAX_PORT + 1 -
startPort`, so the loop visits exactly the ports `startPort .. MAX_PORT` that
the source's guard admits, and fuel 0 is precisely the guard failing. -/
def startServerGo (bind : Nat → Except JsError ServerHandle) (startPort : Nat) :
    Nat → Nat → Except StartError ServerHandle
  | 0, _ => .error (.noAvailablePort startPort)
  | fuel + 1, port =>
    match bind port with
    | .ok s => .ok s
    | .error e =>
      if isAddressInUse e then startServerGo bind startPort fuel (port + 1)
      else .error (.rethrown e)

/-- `startServer` (serve-with-control.ts lines 63-77). -/
def startServer (bind : Nat → Except JsError ServerHandle) (startPort : Nat) :
    Except StartError ServerHandle :=
  startServerGo bind startPort (MAX_PORT + 1 - startPort) startPort

/-- The result of `JSON.parse` on an `info` reply as the discovery code
reads it after its unchecked cast: the four properties it projects, each
possibly absent (or of the wrong type, which the code observes the same
way). `port` is kept when `typeof info.port === 'number'`; JavaScript
numbers that can key the discovery map are modelled as integers. -/
structure PeerJson where
  id : Option String
  name : Option String
  port : Option Int
  url : Option String
deriving DecidableEq

/-- The `RunningServer` record (serve-with-control.ts lines 121-127) as the
discovery map stores it: the spread of the parsed info plus the socket path
the peer answered on. -/
structure RunningServer where
  id : Option String
  name : Option String
  port : Option Int
  url : Option String
  socket : String
deriving DecidableEq

/-- The ambient I/O the control plane talks through: `send socketPath
message` is `sendControlCommand` (`false`, i.e. `none`, collapses
connection-refused, timeout, and error into one outcome, as the source's
promise does), and `parse` is the `JSON.parse` oracle (`none` when it
throws). -/
structure ControlNet where
  send : String → String → Option String
  parse : String → Option PeerJson

/-- An observable action of the supervisor, in event-loop order. -/
inductive Event where
  | sendCmd (socketPath message : String)
  | write (reply : String)
  | stopCalled (port : Nat)
  | serverStarted (port : Nat) (url : String)
  | processExit
  | listenerClosed
deriving DecidableEq

/-- `Map.prototype.set` on the association list representing the discovery
map: replace the entry at an existing key, otherwise append. -/
def mapSet (m : List (Int × RunningServer)) (k : Int) (v : RunningServer) :
    List (Int × RunningServer) :=
  if (m.lookup k).isSome then m.map (fun kv => if kv.1 = k then (k, v) else kv)
  else m ++ [(k, v)]

/-- `parseInt`-style interpretation of a JavaScript `Number(value)` cast as
far as `parsePort` inspects it: `NaN`, an integer, or a finite non-integer.
The numeric semantics of the ambient `Number` conversion is a parameter of
the embedding. -/
inductive JsNumber where
  | nan
  | int (z : Int)
  | nonInt
deriving DecidableEq

/-- `parsePort` (serve-with-control.ts lines 12-20): `undefined` or the empty
string (both falsy) yield `undefined`; a conversion that is not an integer,
or an integer outside `1 .. MAX_PORT`, is warned about and yields
`undefined`; otherwise the port is returned. -/
def parsePort (toNumber : String → JsNumber) (value : Option String) : Option Int :=
  match value with
  | none => none
  | some v =>
    if v = "" then none
    else
      match toNumber v with
      | .int z => if z ≤ 0 ∨ z > (MAX_PORT : Int) then none else some z
      | _ => none

/-- The fallback expression of `resolveBasePort` (serve-with-control.ts line
33): `parsePort(process.env.PORT, 'PORT') ?? DEFAULT_PORT +
(parsePort(process.env.PORT_OFFSET, 'PORT_OFFSET') ?? 0)`. -/
def basePortFallback (toNumber : String → JsNumber) (portEnv offsetEnv : Option String) : Int :=
  (parsePort toNumber portEnv).getD ((DEFAULT_PORT : Int) + (parsePort toNumber offsetEnv).getD 0)

/-- `resolveBasePort` (serve-with-control.ts lines 31-34): `if (explicit)
return explicit` uses JavaScript truthiness, so an explicit port of `0`
falls through to the environment-driven fallback. -/
def resolveBasePort (toNumber : String → JsNumber) (explicit : Option Int)
    (portEnv offsetEnv : Option String) : Int :=
  match explicit with
  | some e => if e = 0 then basePortFallback toNumber portEnv offsetEnv else e
  | none => basePortFallback toNumber portEnv offsetEnv

/-- A concrete `Number(·)` semantics used to instantiate the base-port
theorem: `"4000"` and `"7"` convert to integers, everything else to `NaN`. -/
def toNumber0 : String → JsNumber := fun s =>
  if s = "4000" then .int 4000 else if s = "7" then .int 7 else .nan

/-- One entry of the `discoverRunningServers` scan (serve-with-control.ts
lines 158-170): query the socket with `info`; on a usable reply that parses
and carries a numeric `port`, store `{ ...info, socket: socketPath }` in the
map under that port; otherwise leave the map unchanged. -/
def discoverStep (net : ControlNet) (dirPath entry : String)
    (acc : List (Int × RunningServer)) : List (Int × RunningServer) :=
  match net.send (dirPath ++ "/" ++ entry) "info" with
  | none => acc
  | some response =>
    match net.parse response with
    | none => acc
    | some info =>
      match info.port with
      | some n =>
        mapSet acc n ⟨info.id, info.name, info.port, info.url, dirPath ++ "/" ++ entry⟩
      | none => acc

/-- The scan over the filtered `.sock` entries, returning the `info` queries
issued (one per entry, in listing order) and the final port-keyed map. -/
def discoverGo (net : ControlNet) (dirPath : String) :
    List (Int × RunningServer) → List String → List Event × List (Int × RunningServer)
  | acc, [] => ([], acc)
  | acc, entry :: rest =>
    let (evs, m) := discoverGo net dirPath (discoverStep net dirPath entry acc) rest
    (Event.sendCmd (dirPath ++ "/" ++ entry) "info" :: evs, m)

/-- `discoverRunningServers` (serve-with-control.ts lines 150-174): an
absent control directory yields the empty map without touching the
filesystem; otherwise every directory entry ending in `.sock` is queried
with `info` and the answers are folded into a port-keyed map. -/
def discoverRunningServers (net : ControlNet) (dirExists : Bool) (entries : List String)
    (dirPath : String) : List Event × List (Int × RunningServer) :=
  if dirExists then
    discoverGo net dirPath [] (entries.filter (fun e => strEndsWith e ".sock"))
  else ([], [])

/-- The peer behind `entry` answers the `info` query with a reply that
parses as JSON whose `port` is the number `n`, and `r` is the record the
scan would store for it. -/
def peerContributes (net : ControlNet) (dirPath entry : String) (n : Int)
    (r : RunningServer) : Prop :=
  ∃ response info, net.send (dirPath ++ "/" ++ entry) "info" = some response ∧
    net.parse response = some info ∧ info.port = some n ∧
    r = ⟨info.id, info.name, info.port, info.url, dirPath ++ "/" ++ entry⟩

/-- Outcome of `startServerWithAwareness`: a started handle, a takeover of a
same-identity sibling followed by `process.exit(0)`, or a thrown error
(rethrown bind failure or range exhaustion). -/
inductive StartOutcome where
  | started (s : ServerHandle)
  | exited
  | failed (e : StartError)
deriving DecidableEq

/-- The ambient world a supervisor turn runs against: the control network,
the control-directory listing seen by discovery, the bind outcomes of
`Bun.serve` at each port, and whether `server.stop(true)` throws. -/
structure SupEnv where
  net : ControlNet
  dirExists : Bool
  entries : List String
  bind : Nat → Except JsError ServerHandle
  stopThrows : Option JsError

/-- The mutable closure state of `serveWithControl`: the current `server`
binding plus the identity and control-directory constants. -/
structure SupState where
  server : ServerHandle
  serverId : String
  serverName : String
  controlDir : String
deriving DecidableEq

/-- The loop of `startServerWithAwareness` (serve-with-control.ts lines
176-216). At each candidate port the discovery map is consulted; a known
peer with the current identity is, when `allowRestartExisting` holds, sent
`restart` on its control socket and the process exits; otherwise the port is
tried with `serve` and an address-in-use failure moves to `port + 1` exactly
as in `startServer` (console logging is not an observable here). -/
def startAwareGo (env : SupEnv) (currentId : String) (startPort : Nat)
    (peers : List (Int × RunningServer)) (allow : Bool) :
    Nat → Nat → List Event × StartOutcome
  | 0, _ => ([], .failed (.noAvailablePort startPort))
  | fuel + 1, port =>
    match peers.lookup (port : Int) with
    | some known =>
      if allow && (known.id == some currentId) then
        ([Event.sendCmd known.socket "restart", Event.processExit], .exited)
      else
        match env.bind port with
        | .ok s => ([Event.serverStarted s.port s.url], .started s)
        | .error e =>
          if isAddressInUse e then startAwareGo env currentId startPort peers allow fuel (port + 1)
          else ([], .failed (.rethrown e))
    | none =>
      match env.bind port with
      | .ok s => ([Event.serverStarted s.port s.url], .started s)
      | .error e =>
        if isAddressInUse e then startAwareGo env currentId startPort peers allow fuel (port + 1)
        else ([], .failed (.rethrown e))

/-- `startServerWithAwareness` entry point, visiting ports
`startPort .. MAX_PORT` as the source's while guard does. -/
def startServerWithAwareness (env : SupEnv) (currentId : String) (startPort : Nat)
    (peers : List (Int × RunningServer)) (allow : Bool) : List Event × StartOutcome :=
  startAwareGo env currentId startPort peers allow (MAX_PORT + 1 - startPort) startPort

/-- The part of `restartServer` (serve-with-control.ts lines 231-237) that
runs after its first `await`: re-discovery, then `startServerWithAwareness`
with `allowRestartExisting = false` at the preferred port (`server.port`;
the `?? basePort` fallback never fires because a bound Bun server reports
its port). On success the closure's `server` is replaced; on a failure the
rejected promise was discarded by `void`, so the state is left as is. -/
def restartContinuation (env : SupEnv) (st : SupState) : List Event × SupState :=
  let dres := discoverRunningServers env.net env.dirExists env.entries st.controlDir
  let sres := startServerWithAwareness env st.serverId st.server.port dres.2 false
  (dres.1 ++ sres.1,
    match sres.2 with
    | .started s => { st with server := s }
    | _ => st)

/-- The `restart` branch of the control data handler (serve-with-control.ts
lines 248-252). `void restartServer()` runs `restartServer` synchronously up
to its first `await`: the preferred port is captured and `server.stop(true)`
is called; the handler then resumes and writes `ok:${server.url}` while
`server` is still the pre-restart handle; the rest of `restartServer` runs
on later event-loop turns. When `server.stop` throws, the async function's
rejection is discarded by `void`, so nothing further runs and no error
reply reaches the socket. -/
def handleRestart (env : SupEnv) (st : SupState) : List Event × SupState :=
  match env.stopThrows with
  | some _ => ([Event.stopCalled st.server.port, Event.write ("ok:" ++ st.server.url)], st)
  | none =>
    let cont := restartContinuation env st
    (Event.stopCalled st.server.port :: Event.write ("ok:" ++ st.server.url) :: cont.1,
      cont.2)

/-- `JSON.stringify({ id: serverId, name: serverName, port: server.port,
url: server.url })` (serve-with-control.ts line 259), with no escaping
needed for the identifier strings it serializes. -/
def infoJson (st : SupState) : String :=
  "\x7b\"id\":\"" ++ st.serverId ++ "\",\"name\":\"" ++ st.serverName ++
    "\",\"port\":" ++ toString st.server.port ++ ",\"url\":\"" ++ st.server.url ++ "\"\x7d"

/-- The control connection data handler (serve-with-control.ts lines
244-268): trim the received bytes and dispatch. `stop` writes `ok`, then
calls `stopServer` (which stops the server and calls `process.exit(0)`); if
`server.stop` throws, the exit is never reached and the surrounding catch
writes `error:<message>` on the same socket. Anything other than the three
commands is answered `error:unknown-command`. -/
def handleData (env : SupEnv) (raw : String) (st : SupState) : List Event × SupState :=
  let message := jsTrim raw
  if message = "restart" then handleRestart env st
  else if message = "stop" then
    match env.stopThrows with
    | none => ([Event.write "ok", Event.stopCalled st.server.port, Event.processExit], st)
    | some e =>
      ([Event.write "ok", Event.stopCalled st.server.port,
        Event.write ("error:" ++ errText e)], st)
  else if message = "info" then ([Event.write (infoJson st)], st)
  else ([Event.write "error:unknown-command"], st)

/-- The socket replies among a trace of events, in order. -/
def writesOf (tr : List Event) : List String :=
  tr.filterMap (fun e => match e with | .write r => some r | _ => none)

/-- The mutable state of the dev-tui orchestrator (scripts/dev-tui.ts):
the in-flight-restart flag, the names of the live children, the selected
workspaces (as spawn commands are 1:1 with workspace names), and the
per-workspace latest URL map. -/
structure TuiState where
  restarting : Bool
  children : List String
  workspaces : List String
  latestUrl : List (String × String)
deriving DecidableEq

/-- An observable action of the orchestrator. -/
inductive TuiEvent where
  | killChild (name : String)
  | spawnChild (name : String)
  | openUrl (url : String)
  | writeReply (reply : String)
  | closeControl
  | removeSocketFile
  | exitProcess
deriving DecidableEq

/-- `stopAll` (dev-tui.ts lines 249-257): kill every child and await its
exit. -/
def stopAllEvents (st : TuiState) : List TuiEvent := st.children.map TuiEvent.killChild

/-- `startAll` (dev-tui.ts lines 229-247): spawn one child per workspace. -/
def startAllEvents (st : TuiState) : List TuiEvent := st.workspaces.map TuiEvent.spawnChild

/-- `restartAll` (dev-tui.ts lines 261-267): when a restart is already in
flight (`restarting` set) return immediately having done nothing; otherwise
set the flag, stop all children, start them all again, clear the flag. -/
def restartAll (st : TuiState) : List TuiEvent × TuiState :=
  if st.restarting then ([], st)
  else (stopAllEvents st ++ startAllEvents st,
    { st with restarting := false, children := st.workspaces })

/-- The synchronous prefix of `restartAll` up to its suspension in
`await stopAll()`: the guard check, and setting the in-flight flag. The
returned Bool says whether this invocation proceeds with the restart. -/
def restartAllEnter (st : TuiState) : Bool × TuiState :=
  if st.restarting then (false, st)
  else (true, { st with restarting := true })

/-- `shutdown` (dev-tui.ts lines 311-321): close the control server, remove
the socket file, stop all children, exit. -/
def tuiShutdown (st : TuiState) : List TuiEvent × TuiState :=
  (TuiEvent.closeControl :: TuiEvent.removeSocketFile ::
      (stopAllEvents st ++ [TuiEvent.exitProcess]),
    { st with children := [] })

/-- `handleControlMessage` (dev-tui.ts lines 269-284): dispatch `restart`,
`open`, and `stop`; any other message falls through the three guards and
nothing at all happens. No branch ever writes to the socket. -/
def handleControlMessage (msg : String) (st : TuiState) : List TuiEvent × TuiState :=
  if msg = "restart" then restartAll st
  else if msg = "open" then
    match st.workspaces.find? (fun w => (st.latestUrl.lookup w).isSome) with
    | some w => ([TuiEvent.openUrl ((st.latestUrl.lookup w).getD "")], st)
    | none => ([], st)
  else if msg = "stop" then tuiShutdown st
  else ([], st)

/-- The orchestrator's control connection data handler (dev-tui.ts lines
303-307): `void handleControlMessage(data.toString().trim())`. -/
def tuiSocketData (raw : String) (st : TuiState) : List TuiEvent × TuiState :=
  handleControlMessage (jsTrim raw) st

/-- The socket replies among a trace of orchestrator events. -/
def tuiWritesOf (tr : List TuiEvent) : List String :=
  tr.filterMap (fun e => match e with | .writeReply r => some r | _ => none)

/-- The UTF-16-ish code-unit sequence JavaScript's default array sort
compares workspace directories by. -/
def codeUnits (s : String) : List Nat := s.data.map Char.toNat

/-- The comparison of `workspaces.map(w => w.dir).sort()`. -/
def dirLe (a b : String) : Prop := codeUnits a ≤ codeUnits b

instance instDecidableDirLe : DecidableRel dirLe := fun a b =>
  inferInstanceAs (Decidable (codeUnits a ≤ codeUnits b))

/-- The sorted workspace-directory list (dev-tui.ts line 222). -/
def sortedDirs (dirs : List String) : List String := List.insertionSort dirLe dirs

/-- `workspaces.map(w => w.dir).sort().join('|')` (dev-tui.ts line 222). -/
def socketKey (dirs : List String) : String := String.intercalate "|" (sortedDirs dirs)

/-- Modelled from the spec: the orchestrator's "control socket identity is
derived from a hash of the sorted set of workspace directories"
(`createHash('sha1').update(...).digest('hex').slice(0, 8)`); node's SHA-1
implementation is outside this repository, so the hash is modelled as a
fixed deterministic stand-in function of the joined key — every theorem
below depends only on it being a function. -/
def hash8 (s : String) : String :=
  ((Nat.toDigits 16 (s.data.foldl (fun h c => (h * 131 + c.toNat) % 4294967296) 7)).take
    8).asString

/-- `socketId` (dev-tui.ts lines 221-224). -/
def tuiSocketId (dirs : List String) : String := hash8 (socketKey dirs)

/-- `controlSocket` (dev-tui.ts lines 225-226):
`path.join(ROOT_DIR, '.dev', `dev-tui-${socketId}.sock`)`. -/
def tuiControlSocketPath (rootDir : String) (dirs : List String) : String :=
  rootDir ++ "/.dev/" ++ ("dev-tui-" ++ tuiSocketId dirs ++ ".sock")

/-- A concrete supervisor environment: no control directory, port 3000
occupied by an unrelated process (bind fails `EADDRINUSE`), port 3001 free,
and a `server.stop` that does not throw. -/
def env1 : SupEnv where
  net := ⟨fun _ _ => none, fun _ => none⟩
  dirExists := false
  entries := []
  bind := fun p =>
    if p = 3000 then .error (.err (some "EADDRINUSE") "EADDRINUSE: address already in use")
    else if p = 3001 then .ok ⟨3001, "http://localhost:3001"⟩
    else .error (.err none "unreachable")
  stopThrows := none

/-- A concrete supervisor state: the current server is bound on port 3000. -/
def st1 : SupState where
  server := ⟨3000, "http://localhost:3000"⟩
  serverId := "web-abc123"
  serverName := "web"
  controlDir := "/repo/.dev"

/-- `env1` with a `server.stop(true)` that throws. -/
def env2 : SupEnv := { env1 with stopThrows := some (.err none "boom") }

/-- `env1` with an existing control directory holding one socket file. -/
def env3 : SupEnv := { env1 with dirExists := true, entries := ["x.sock"] }

/-- A discovery map holding one same-identity peer on port 3000. -/
def peers1 : List (Int × RunningServer) :=
  [((3000 : Int), ⟨some "web-abc123", some "web", some 3000,
    some "http://localhost:3000", "/repo/.dev/web-abc123.sock"⟩)]

/-- A fresh orchestrator state: one live child, no restart in flight. -/
def tst0 : TuiState := ⟨false, ["web"], ["web"], []⟩

/-- An orchestrator state with a known URL for its workspace. -/
def tst8 : TuiState := ⟨false, ["web"], ["web"], [("web", "http://localhost:4100")]⟩

/-- A concrete network used to instantiate the discovery contract: exactly
one socket (`/d/a.sock`) answers `info`, and its reply parses to a peer on
port 4000. -/
def net0 : ControlNet where
  send := fun path msg =>
    if path = "/d/a.sock" then (if msg = "info" then some "ra" else none) else none
  parse := fun r =>
    if r = "ra" then some ⟨some "peer", some "peer", some 4000, some "http://localhost:4000"⟩
    else none

/-- The while-loop of `startServer`, characterized over every remaining
range: either some first port settles the loop (success or fatal rethrow)
with every earlier port in range failing as address-in-use, or every port of
the remaining range fails as address-in-use and the loop ends exhausted. -/
theorem startServerGo_spec (bind : Nat → Except JsError ServerHandle) (startPort : Nat) :
    ∀ fuel port, MAX_PORT + 1 = port + fuel →
    (∃ p, port ≤ p ∧ p ≤ MAX_PORT ∧
      (∀ q, port ≤ q → q < p → ∃ e, bind q = .error e ∧ isAddressInUse e = true) ∧
      ((∃ s, bind p = .ok s ∧ startServerGo bind startPort fuel port = .ok s) ∨
       (∃ e, bind p = .error e ∧ isAddressInUse e = false ∧
          startServerGo bind startPort fuel port = .error (.rethrown e)))) ∨
    ((∀ q, port ≤ q → q ≤ MAX_PORT → ∃ e, bind q = .error e ∧ isAddressInUse e = true) ∧
      startServerGo bind startPort fuel port = .error (.noAvailablePort startPort)) := by
  intro fuel
  induction fuel with
  | zero =>
    intro port h
    right
    refine ⟨fun q hq1 hq2 => absurd (hq1.trans hq2) (by omega), rfl⟩
  | succ fuel ih =>
    intro port h
    cases hb : bind port with
    | ok s =>
      left
      exact ⟨port, le_refl port, by omega,
        fun q hq1 hq2 => absurd (hq1.trans_lt hq2) (lt_irrefl port),
        Or.inl ⟨s, hb, by simp [startServerGo, hb]⟩⟩
    | error e =>
      by_cases hin : isAddressInUse e = true
      · have hstep : startServerGo bind startPort (fuel + 1) port =
            startServerGo bind startPort fuel (port + 1) := by
          simp [startServerGo, hb, hin]
        rcases ih (port + 1) (by omega) with ⟨p, hp1, hp2, hall, hres⟩ | ⟨hall, hres⟩
        · left
          refine ⟨p, by omega, hp2, fun q hq1 hq2 => ?_, by rwa [hstep]⟩
          rcases Nat.eq_or_lt_of_le hq1 with hq | hq
          · exact ⟨e, hq ▸ hb, hin⟩
          · exact hall q hq hq2
        · right
          refine ⟨fun q hq1 hq2 => ?_, by rwa [hstep]⟩
          rcases Nat.eq_or_lt_of_le hq1 with hq | hq
          · exact ⟨e, hq ▸ hb, hin⟩
          · exact hall q hq hq2
      · left
        refine ⟨port, le_refl port, by omega,
          fun q hq1 hq2 => absurd (hq1.trans_lt hq2) (lt_irrefl port),
          Or.inr ⟨e, hb, by simpa using hin, by simp [startServerGo, hb, hin]⟩⟩

/-- C2: for every starting port and every bind function, `startServer`
returns the listener produced on the first port at or above `startPort` on
which the bind succeeds, having retried with `port + 1` only across failures
classified as address-in-use; it never passes over a port whose bind would
have succeeded, a failure not classified as address-in-use is propagated
unchanged from the first port that is not address-in-use, and when every
port up to `MAX_PORT` fails as address-in-use it returns the distinct
exhaustion error whose message is
`No available port found starting from <startPort>`. -/
theorem startServer_first_fit (bind : Nat → Except JsError ServerHandle) (startPort : Nat) :
    (∃ p, startPort ≤ p ∧ p ≤ MAX_PORT ∧
      (∀ q, startPort ≤ q → q < p → ∃ e, bind q = .error e ∧ isAddressInUse e = true) ∧
      ((∃ s, bind p = .ok s ∧ startServer bind startPort = .ok s) ∨
       (∃ e, bind p = .error e ∧ isAddressInUse e = false ∧
          startServer bind startPort = .error (.rethrown e)))) ∨
    ((∀ q, startPort ≤ q → q ≤ MAX_PORT → ∃ e, bind q = .error e ∧ isAddressInUse e = true) ∧
      startServer bind startPort = .error (.noAvailablePort startPort) ∧
      (StartError.noAvailablePort startPort).renderMessage =
        "No available port found starting from " ++ toString startPort) := by
  by_cases h : startPort ≤ MAX_PORT
  · rcases startServerGo_spec bind startPort (MAX_PORT + 1 - startPort) startPort (by omega) with
      ⟨p, hp1, hp2, hall, hres⟩ | ⟨hall, hres⟩
    · exact Or.inl ⟨p, hp1, hp2, hall, hres⟩
    · exact Or.inr ⟨hall, hres, rfl⟩
  · right
    have hz : MAX_PORT + 1 - startPort = 0 := by omega
    refine ⟨fun q hq1 hq2 => absurd (hq1.trans hq2) (by omega), ?_, rfl⟩
    rw [startServer, hz]
    rfl

/-- C10: base-port resolution precedence. A truthy explicit port wins and
both environment values are ignored (the result does not mention them); with
no truthy explicit port, a valid `PORT` wins and `PORT_OFFSET` is ignored;
`PORT_OFFSET` is added to `DEFAULT_PORT` only when `PORT` is absent or
invalid. -/
theorem resolveBasePort_precedence (toNumber : String → JsNumber)
    (portEnv offsetEnv : Option String) :
    (∀ e : Int, e ≠ 0 → resolveBasePort toNumber (some e) portEnv offsetEnv = e) ∧
    (∀ explicit : Option Int, (explicit = none ∨ explicit = some 0) →
      (∀ p : Int, parsePort toNumber portEnv = some p →
        resolveBasePort toNumber explicit portEnv offsetEnv = p) ∧
      (parsePort toNumber portEnv = none →
        resolveBasePort toNumber explicit portEnv offsetEnv =
          (DEFAULT_PORT : Int) + (parsePort toNumber offsetEnv).getD 0)) := by
  constructor
  · intro e he
    simp [resolveBasePort, he]
  · rintro explicit (rfl | rfl) <;>
      exact ⟨fun p hp => by simp [resolveBasePort, basePortFallback, hp],
        fun hp => by simp [resolveBasePort, basePortFallback, hp]⟩

/-- Witness for C10 at concrete inputs: an explicit port 8080 beats
`PORT=4000`; with no explicit port `PORT=4000` beats `PORT_OFFSET=7`; with
explicit port 0 (falsy) and no `PORT`, the result is `3000 + 7`. -/
theorem resolveBasePort_precedence_witness :
    resolveBasePort toNumber0 (some 8080) (some "4000") (some "7") = 8080 ∧
    resolveBasePort toNumber0 none (some "4000") (some "7") = 4000 ∧
    resolveBasePort toNumber0 (some 0) none (some "7") = 3007 :=
  ⟨(resolveBasePort_precedence toNumber0 (some "4000") (some "7")).1 8080 (by decide),
   ((resolveBasePort_precedence toNumber0 (some "4000") (some "7")).2 none (Or.inl rfl)).1
     4000 (by decide),
   (((resolveBasePort_precedence toNumber0 none (some "7")).2 (some 0) (Or.inr rfl)).2
     (by decide)).trans (by decide)⟩

/-- `List.lookup` on a cons, phrased with a propositional `if`. -/
theorem lookup_cons (a : Int) (kv : Int × RunningServer) (m : List (Int × RunningServer)) :
    List.lookup a (kv :: m) = if a = kv.1 then some kv.2 else List.lookup a m := by
  rcases kv with ⟨k1, v1⟩
  by_cases h : a = k1
  · simp [List.lookup, h]
  · simp [List.lookup, beq_eq_false_iff_ne.mpr h, h]

/-- Replacing the entry at key `k` leaves lookups of other keys unchanged. -/
theorem lookup_replace_ne (k k' : Int) (v : RunningServer) (hne : k' ≠ k) :
    ∀ m : List (Int × RunningServer),
      (m.map (fun kv => if kv.1 = k then (k, v) else kv)).lookup k' = m.lookup k' := by
  intro m
  induction m with
  | nil => rfl
  | cons kv m ih =>
    simp only [List.map_cons]
    by_cases h : kv.1 = k
    · have hne2 : k' ≠ kv.1 := fun hh => hne (hh.trans h)
      rw [if_pos h, lookup_cons, lookup_cons, if_neg (show ¬ k' = (k, v).1 from hne),
        if_neg hne2, ih]
    · rw [if_neg h, lookup_cons, lookup_cons]
      by_cases h3 : k' = kv.1
      · rw [if_pos h3, if_pos h3]
      · rw [if_neg h3, if_neg h3, ih]

/-- Replacing the entry at an existing key `k` makes lookup of `k` return
the new value. -/
theorem lookup_replace_eq (k : Int) (v : RunningServer) :
    ∀ m : List (Int × RunningServer), (m.lookup k).isSome →
      (m.map (fun kv => if kv.1 = k then (k, v) else kv)).lookup k = some v := by
  intro m
  induction m with
  | nil => intro h; simp [List.lookup] at h
  | cons kv m ih =>
    intro h
    simp only [List.map_cons]
    by_cases h1 : kv.1 = k
    · rw [if_pos h1, lookup_cons, if_pos (show k = (k, v).1 from rfl)]
    · rw [lookup_cons, if_neg (fun hh => h1 hh.symm)] at h
      rw [if_neg h1, lookup_cons, if_neg (fun hh => h1 hh.symm)]
      exact ih h

/-- Appending a fresh key at the back behaves as an update for lookups. -/
theorem lookup_append_single (k k' : Int) (v : RunningServer) :
    ∀ m : List (Int × RunningServer), m.lookup k = none →
      (m ++ [(k, v)]).lookup k' = if k' = k then some v else m.lookup k' := by
  intro m
  induction m with
  | nil =>
    intro _
    simp only [List.nil_append, lookup_cons]
  | cons kv m ih =>
    intro h
    rw [lookup_cons] at h
    by_cases hk : k = kv.1
    · rw [if_pos hk] at h
      cases h
    · rw [if_neg hk] at h
      by_cases h3 : k' = kv.1
      · have h4 : k' ≠ k := fun hh => hk ((hh.symm.trans h3).symm ▸ rfl)
        rw [List.cons_append, lookup_cons, if_pos h3, if_neg h4, lookup_cons, if_pos h3]
      · rw [List.cons_append, lookup_cons, if_neg h3, ih h, lookup_cons]
        by_cases h5 : k' = k
        · rw [if_pos h5, if_pos h5]
        · rw [if_neg h5, if_neg h5, if_neg h3]

/-- `Map.set` lookup characterization. -/
theorem lookup_mapSet (m : List (Int × RunningServer)) (k k' : Int) (v : RunningServer) :
    (mapSet m k v).lookup k' = if k' = k then some v else m.lookup k' := by
  unfold mapSet
  by_cases h : (m.lookup k).isSome
  · rw [if_pos h]
    by_cases h2 : k' = k
    · subst h2
      rw [if_pos rfl]
      exact lookup_replace_eq _ v _ h
    · rw [lookup_replace_ne k k' v h2 m, if_neg h2]
  · rw [if_neg h]
    exact lookup_append_single k k' v m (Option.not_isSome_iff_eq_none.mp h)

/-- One discovery step either stores exactly the record the answering peer
contributes at key `n`, or leaves the map unchanged at `n` because the peer
does not contribute that port. -/
theorem discoverStep_lookup (net : ControlNet) (dirPath entry : String)
    (acc : List (Int × RunningServer)) (n : Int) :
    (∃ r, peerContributes net dirPath entry n r ∧
      (discoverStep net dirPath entry acc).lookup n = some r) ∨
    ((∀ r, ¬ peerContributes net dirPath entry n r) ∧
      (discoverStep net dirPath entry acc).lookup n = acc.lookup n) := by
  rcases hsend : net.send (dirPath ++ "/" ++ entry) "info" with _ | response
  · right
    refine ⟨?_, by simp [discoverStep, hsend]⟩
    rintro r ⟨resp, info, hs, -⟩
    rw [hsend] at hs
    cases hs
  · rcases hparse : net.parse response with _ | info
    · right
      refine ⟨?_, by simp [discoverStep, hsend, hparse]⟩
      rintro r ⟨resp, info, hs, hp, -⟩
      rw [hsend] at hs
      cases hs
      rw [hparse] at hp
      cases hp
    · rcases hport : info.port with _ | n'
      · right
        refine ⟨?_, by simp [discoverStep, hsend, hparse, hport]⟩
        rintro r ⟨resp, info', hs, hp, hn, -⟩
        rw [hsend] at hs
        cases hs
        rw [hparse] at hp
        cases hp
        rw [hport] at hn
        cases hn
      · have hstep : discoverStep net dirPath entry acc =
            mapSet acc n' ⟨info.id, info.name, info.port, info.url,
              dirPath ++ "/" ++ entry⟩ := by
          simp [discoverStep, hsend, hparse, hport]
        by_cases hn : n = n'
        · subst hn
          left
          refine ⟨⟨info.id, info.name, info.port, info.url, dirPath ++ "/" ++ entry⟩,
            ⟨response, info, hsend, hparse, hport, rfl⟩, ?_⟩
          rw [hstep, lookup_mapSet, if_pos rfl]
        · right
          constructor
          · rintro r ⟨resp, info', hs, hp, hpn, -⟩
            rw [hsend] at hs
            cases hs
            rw [hparse] at hp
            cases hp
            rw [hport] at hpn
            cases hpn
            exact hn rfl
          · rw [hstep, lookup_mapSet, if_neg hn]

/-- The discovery scan over any entry list: it issues one `info` query per
entry in order, a port is present in the final map exactly when it was
present initially or some entry's peer contributes it, and every stored
record comes from the initial map or from a contributing peer. -/
theorem discoverGo_spec (net : ControlNet) (dirPath : String) :
    ∀ (l : List String) (acc : List (Int × RunningServer)),
      (discoverGo net dirPath acc l).1 =
        l.map (fun e => Event.sendCmd (dirPath ++ "/" ++ e) "info") ∧
      ∀ n : Int,
        (((discoverGo net dirPath acc l).2.lookup n).isSome ↔
          (acc.lookup n).isSome ∨ ∃ e ∈ l, ∃ r, peerContributes net dirPath e n r) ∧
        ∀ r, (discoverGo net dirPath acc l).2.lookup n = some r →
          acc.lookup n = some r ∨ ∃ e ∈ l, peerContributes net dirPath e n r := by
  intro l
  induction l with
  | nil =>
    intro acc
    exact ⟨rfl, fun n => ⟨by simp [discoverGo], fun r h => Or.inl h⟩⟩
  | cons entry rest ih =>
    intro acc
    have hunfold1 : (discoverGo net dirPath acc (entry :: rest)).1 =
        Event.sendCmd (dirPath ++ "/" ++ entry) "info" ::
          (discoverGo net dirPath (discoverStep net dirPath entry acc) rest).1 := by
      simp [discoverGo]
    have hunfold2 : (discoverGo net dirPath acc (entry :: rest)).2 =
        (discoverGo net dirPath (discoverStep net dirPath entry acc) rest).2 := by
      simp [discoverGo]
    refine ⟨?_, fun n => ?_⟩
    · rw [hunfold1, (ih (discoverStep net dirPath entry acc)).1]
      rfl
    · have hstep := discoverStep_lookup net dirPath entry acc n
      have ih2 := (ih (discoverStep net dirPath entry acc)).2 n
      rw [hunfold2]
      constructor
      · rw [ih2.1]
        rcases hstep with ⟨r, hc, hl⟩ | ⟨hnc, hl⟩
        · rw [hl]
          constructor
          · intro _
            exact Or.inr ⟨entry, List.mem_cons_self entry rest, r, hc⟩
          · intro _
            exact Or.inl rfl
        · rw [hl]
          constructor
          · rintro (h | ⟨e, he, hr⟩)
            · exact Or.inl h
            · exact Or.inr ⟨e, List.mem_cons_of_mem entry he, hr⟩
          · rintro (h | ⟨e, he, hr⟩)
            · exact Or.inl h
            · rcases List.mem_cons.mp he with rfl | he'
              · obtain ⟨r, hr⟩ := hr
                exact absurd hr (hnc r)
              · exact Or.inr ⟨e, he', hr⟩
      · intro r hr
        rcases ih2.2 r hr with h | ⟨e, he, hc⟩
        · rcases hstep with ⟨r', hc', hl⟩ | ⟨hnc, hl⟩
          · rw [hl] at h
            cases h
            exact Or.inr ⟨entry, List.mem_cons_self entry rest, hc'⟩
          · rw [hl] at h
            exact Or.inl h
        · exact Or.inr ⟨e, List.mem_cons_of_mem entry he, hc⟩

/-- C4: discovery on an absent control directory is the empty map with no
queries; on an existing directory each `.sock` entry is queried with `info`,
a port keys the resulting map exactly when some `.sock` entry's peer
answered with a reply that parses as JSON carrying that numeric port, and
every stored record is the spread of such a parsed reply plus its socket
path, so non-responding, erroring, or malformed peers are dropped without
failing the scan. -/
theorem discover_contract (net : ControlNet) (dirExists : Bool) (entries : List String)
    (dirPath : String) :
    (dirExists = false → discoverRunningServers net dirExists entries dirPath = ([], [])) ∧
    (dirExists = true →
      (discoverRunningServers net dirExists entries dirPath).1 =
        (entries.filter (fun e => strEndsWith e ".sock")).map
          (fun e => Event.sendCmd (dirPath ++ "/" ++ e) "info") ∧
      ∀ n : Int,
        ((((discoverRunningServers net dirExists entries dirPath).2.lookup n).isSome ↔
          ∃ e ∈ entries, strEndsWith e ".sock" = true ∧
            ∃ r, peerContributes net dirPath e n r) ∧
        ∀ r, (discoverRunningServers net dirExists entries dirPath).2.lookup n = some r →
          ∃ e ∈ entries, strEndsWith e ".sock" = true ∧ peerContributes net dirPath e n r)) := by
  constructor
  · intro h
    subst h
    rfl
  · intro h
    subst h
    have hgo := discoverGo_spec net dirPath (entries.filter (fun e => strEndsWith e ".sock")) []
    have hrw : discoverRunningServers net true entries dirPath =
        discoverGo net dirPath [] (entries.filter (fun e => strEndsWith e ".sock")) := by
      simp [discoverRunningServers]
    rw [hrw]
    refine ⟨hgo.1, fun n => ?_⟩
    have h1 := (hgo.2 n).1
    have h2 := (hgo.2 n).2
    constructor
    · rw [h1]
      simp only [List.lookup, Option.isSome_none, Bool.false_eq_true, false_or]
      constructor
      · rintro ⟨e, he, hr⟩
        rcases List.mem_filter.mp he with ⟨he1, he2⟩
        exact ⟨e, he1, he2, hr⟩
      · rintro ⟨e, he, hends, hr⟩
        exact ⟨e, List.mem_filter.mpr ⟨he, hends⟩, hr⟩
    · intro r hr
      rcases h2 r hr with h | ⟨e, he, hc⟩
      · simp [List.lookup] at h
      · rcases List.mem_filter.mp he with ⟨he1, he2⟩
        exact ⟨e, he1, he2, hc⟩

/-- Witness for C4 at a concrete directory listing: with the directory
absent the result is empty; with it present, `a.sock` and `c.sock` are
queried (but not `b.txt`), and port 4000 keys the map because `a.sock`'s
peer contributed it. -/
theorem discover_contract_witness :
    discoverRunningServers net0 false ["a.sock"] "/d" = ([], []) ∧
    (discoverRunningServers net0 true ["a.sock", "b.txt", "c.sock"] "/d").1 =
      (["a.sock", "b.txt", "c.sock"].filter (fun e => strEndsWith e ".sock")).map
        (fun e => Event.sendCmd ("/d" ++ "/" ++ e) "info") ∧
    (((discoverRunningServers net0 true ["a.sock", "b.txt", "c.sock"] "/d").2.lookup
        (4000 : Int)).isSome ↔
      ∃ e ∈ ["a.sock", "b.txt", "c.sock"], strEndsWith e ".sock" = true ∧
        ∃ r, peerContributes net0 "/d" e 4000 r) :=
  ⟨(discover_contract net0 false ["a.sock"] "/d").1 rfl,
   ((discover_contract net0 true ["a.sock", "b.txt", "c.sock"] "/d").2 rfl).1,
   (((discover_contract net0 true ["a.sock", "b.txt", "c.sock"] "/d").2 rfl).2 4000).1⟩

/-- Dispatch equation: a trimmed `restart` runs the restart branch. -/
theorem handleData_of_trim_restart (env : SupEnv) (st : SupState) (raw : String)
    (h : jsTrim raw = "restart") : handleData env raw st = handleRestart env st := by
  simp [handleData, h]

/-- Dispatch equation: a trimmed `stop` with a non-throwing `server.stop`. -/
theorem handleData_stop_none (env : SupEnv) (st : SupState) (raw : String)
    (h : jsTrim raw = "stop") (he : env.stopThrows = none) :
    handleData env raw st =
      ([Event.write "ok", Event.stopCalled st.server.port, Event.processExit], st) := by
  simp [handleData, h, he]

/-- Dispatch equation: a trimmed `stop` whose `server.stop` throws; the
process exit is skipped and the catch writes the error after the `ok`. -/
theorem handleData_stop_some (env : SupEnv) (st : SupState) (raw : String) (e : JsError)
    (h : jsTrim raw = "stop") (he : env.stopThrows = some e) :
    handleData env raw st =
      ([Event.write "ok", Event.stopCalled st.server.port,
        Event.write ("error:" ++ errText e)], st) := by
  simp [handleData, h, he]

/-- Dispatch equation: a trimmed `info` answers the JSON snapshot. -/
theorem handleData_info (env : SupEnv) (st : SupState) (raw : String)
    (h : jsTrim raw = "info") : handleData env raw st = ([Event.write (infoJson st)], st) := by
  simp [handleData, h]

/-- Dispatch equation: anything else answers `error:unknown-command`. -/
theorem handleData_unknown (env : SupEnv) (st : SupState) (raw : String)
    (h1 : jsTrim raw ≠ "restart") (h2 : jsTrim raw ≠ "stop") (h3 : jsTrim raw ≠ "info") :
    handleData env raw st = ([Event.write "error:unknown-command"], st) := by
  simp [handleData, h1, h2, h3]

/-- Every event of a discovery scan is an `info` query. -/
theorem discover_events_sendInfo (net : ControlNet) (b : Bool) (entries : List String)
    (dirPath : String) :
    ∀ ev ∈ (discoverRunningServers net b entries dirPath).1,
      ∃ sock, ev = Event.sendCmd sock "info" := by
  intro ev hev
  cases b with
  | false => simp [discoverRunningServers] at hev
  | true =>
    have h1 := (discoverGo_spec net dirPath (entries.filter (fun e => strEndsWith e ".sock")) []).1
    have hrw : (discoverRunningServers net true entries dirPath).1 =
        (discoverGo net dirPath [] (entries.filter (fun e => strEndsWith e ".sock"))).1 := by
      simp [discoverRunningServers]
    rw [hrw, h1] at hev
    obtain ⟨e, -, rfl⟩ := List.mem_map.mp hev
    exact ⟨_, rfl⟩

/-- Every event of the awareness loop is either a started-server
observation, or — only with `allowRestartExisting` — the `restart` command
sent to a discovered same-identity peer followed by the process exit. -/
theorem startAware_events (env : SupEnv) (currentId : String) (startPort : Nat)
    (peers : List (Int × RunningServer)) (allow : Bool) :
    ∀ fuel port ev, ev ∈ (startAwareGo env currentId startPort peers allow fuel port).1 →
      (∃ p u, ev = Event.serverStarted p u) ∨
      (allow = true ∧ ∃ known, (∃ q, peers.lookup q = some known) ∧
        known.id = some currentId ∧
        (ev = Event.sendCmd known.socket "restart" ∨ ev = Event.processExit)) := by
  intro fuel
  induction fuel with
  | zero => intro port ev hev; simp [startAwareGo] at hev
  | succ fuel ih =>
    intro port ev hev
    rcases hk : peers.lookup (port : Int) with _ | known
    · simp only [startAwareGo, hk] at hev
      rcases hb : env.bind port with e | s
      · simp only [hb] at hev
        by_cases hin : isAddressInUse e = true
        · rw [if_pos hin] at hev
          exact ih (port + 1) ev hev
        · rw [if_neg hin] at hev
          simp at hev
      · simp only [hb] at hev
        rcases List.mem_singleton.mp hev with rfl
        exact Or.inl ⟨s.port, s.url, rfl⟩
    · simp only [startAwareGo, hk] at hev
      by_cases ha : (allow && (known.id == some currentId)) = true
      · rw [if_pos ha] at hev
        have ha' := ha
        rw [Bool.and_eq_true] at ha'
        obtain ⟨ha1, ha2⟩ := ha'
        have hid : known.id = some currentId := beq_iff_eq.mp ha2
        rcases List.mem_cons.mp hev with rfl | hev2
        · exact Or.inr ⟨ha1, known, ⟨(port : Int), hk⟩, hid, Or.inl rfl⟩
        · rcases List.mem_singleton.mp hev2 with rfl
          exact Or.inr ⟨ha1, known, ⟨(port : Int), hk⟩, hid, Or.inr rfl⟩
      · rw [if_neg ha] at hev
        rcases hb : env.bind port with e | s
        · simp only [hb] at hev
          by_cases hin : isAddressInUse e = true
          · rw [if_pos hin] at hev
            exact ih (port + 1) ev hev
          · rw [if_neg hin] at hev
            simp at hev
        · simp only [hb] at hev
          rcases List.mem_singleton.mp hev with rfl
          exact Or.inl ⟨s.port, s.url, rfl⟩

/-- A trace with no `write` events has no replies. -/
theorem writesOf_eq_nil : ∀ tr : List Event,
    (∀ ev ∈ tr, ∀ r, ev ≠ Event.write r) → writesOf tr = [] := by
  intro tr
  induction tr with
  | nil => intro _; rfl
  | cons ev tr ih =>
    intro h
    cases ev with
    | write r => exact absurd rfl (h _ (List.mem_cons_self _ _) r)
    | sendCmd a b => exact ih (fun e he r => h e (List.mem_cons_of_mem _ he) r)
    | stopCalled p => exact ih (fun e he r => h e (List.mem_cons_of_mem _ he) r)
    | serverStarted p u => exact ih (fun e he r => h e (List.mem_cons_of_mem _ he) r)
    | processExit => exact ih (fun e he r => h e (List.mem_cons_of_mem _ he) r)
    | listenerClosed => exact ih (fun e he r => h e (List.mem_cons_of_mem _ he) r)

/-- Every event of the restart continuation is an `info` query or a
started-server observation (it never writes to the connection, never exits
the process, never closes the listener, and never commands a peer). -/
theorem restartContinuation_events (env : SupEnv) (st : SupState) :
    ∀ ev ∈ (restartContinuation env st).1,
      (∃ sock, ev = Event.sendCmd sock "info") ∨ ∃ p u, ev = Event.serverStarted p u := by
  intro ev hev
  simp only [restartContinuation] at hev
  rcases List.mem_append.mp hev with h | h
  · exact Or.inl (discover_events_sendInfo env.net env.dirExists env.entries st.controlDir ev h)
  · rcases startAware_events env st.serverId st.server.port
        (discoverRunningServers env.net env.dirExists env.entries st.controlDir).2 false
        (MAX_PORT + 1 - st.server.port) st.server.port ev h with hs | ⟨hfalse, -⟩
    · exact Or.inr hs
    · cases hfalse

/-- Restart branch equation when `server.stop` does not throw. -/
theorem handleRestart_none (env : SupEnv) (st : SupState) (h : env.stopThrows = none) :
    handleRestart env st =
      (Event.stopCalled st.server.port :: Event.write ("ok:" ++ st.server.url) ::
        (restartContinuation env st).1, (restartContinuation env st).2) := by
  simp [handleRestart, h]

/-- Restart branch equation when `server.stop` throws: the `void`ed promise
rejects unhandled, so only the stop attempt and the optimistic reply are
observable. -/
theorem handleRestart_some (env : SupEnv) (st : SupState) (e : JsError)
    (h : env.stopThrows = some e) :
    handleRestart env st =
      ([Event.stopCalled st.server.port, Event.write ("ok:" ++ st.server.url)], st) := by
  simp [handleRestart, h]

/-- The shape of every restart trace: stop of the old server, then the
`ok:<old url>` reply, then only `info` queries and started-server events. -/
theorem handleRestart_trace (env : SupEnv) (st : SupState) :
    ∃ rest, (handleRestart env st).1 =
      Event.stopCalled st.server.port :: Event.write ("ok:" ++ st.server.url) :: rest ∧
      ∀ ev ∈ rest, (∃ sock, ev = Event.sendCmd sock "info") ∨
        ∃ p u, ev = Event.serverStarted p u := by
  rcases he : env.stopThrows with _ | e
  · exact ⟨(restartContinuation env st).1, by rw [handleRestart_none env st he],
      restartContinuation_events env st⟩
  · exact ⟨[], by rw [handleRestart_some env st e he], by simp⟩

/-- C1 (amended): for every environment and state, the `restart` branch of
the data handler writes exactly one reply on the connection, and it is
`ok:<url>` for the URL of the server that was current when the command
arrived — written after the old server's stop is invoked but before the
asynchronous restart produces the new server; in particular a restart that
raises is never reported as `error:<message>` on this connection. -/
theorem restart_reply_uses_preRestart_url (env : SupEnv) (st : SupState) :
    writesOf (handleData env "restart" st).1 = ["ok:" ++ st.server.url] ∧
    ∃ rest, (handleData env "restart" st).1 =
      Event.stopCalled st.server.port :: Event.write ("ok:" ++ st.server.url) :: rest ∧
      writesOf rest = [] := by
  have hd : handleData env "restart" st = handleRestart env st :=
    handleData_of_trim_restart env st "restart" (by decide)
  obtain ⟨rest, hsh, hev⟩ := handleRestart_trace env st
  have hw : writesOf rest = [] := by
    refine writesOf_eq_nil rest (fun ev hmem r => ?_)
    rcases hev ev hmem with ⟨sock, rfl⟩ | ⟨p, u, rfl⟩ <;> simp
  have hw' : List.filterMap
      (fun e => match e with | Event.write r => some r | _ => none) rest = [] := hw
  constructor
  · rw [hd, hsh]
    show List.filterMap _ _ = _
    simp only [List.filterMap_cons, hw']
  · exact ⟨rest, by rw [hd, hsh], hw⟩

/-- Counterexample to C1 as stated: with port 3000 newly occupied at restart
time, the restart moves the server to `http://localhost:3001`, yet the
connection is replied `ok:http://localhost:3000` — the pre-restart URL — and
the reply is written before the new server is started, so the reply does not
carry the newly started server's URL. -/
theorem restart_reply_stale_url_cex :
    (handleData env1 "restart" st1).2.server.url = "http://localhost:3001" ∧
    Event.write ("ok:" ++ "http://localhost:3001") ∉ (handleData env1 "restart" st1).1 ∧
    (handleData env1 "restart" st1).1 =
      [Event.stopCalled 3000, Event.write "ok:http://localhost:3000",
        Event.serverStarted 3001 "http://localhost:3001"] := by
  refine ⟨by decide, by decide, by decide⟩

/-- C3: on a connection whose trimmed message is `stop`, any invocation of
the stop handler (`server.stop`) in the trace is strictly preceded by the
`ok` reply write. -/
theorem stop_reply_precedes_stop_handler (env : SupEnv) (st : SupState) (raw : String)
    (hmsg : jsTrim raw = "stop") :
    ∀ (i p : Nat), ((handleData env raw st).1)[i]? = some (Event.stopCalled p) →
      ∃ j : Nat, j < i ∧ ((handleData env raw st).1)[j]? = some (Event.write "ok") := by
  rcases he : env.stopThrows with _ | e
  · rw [handleData_stop_none env st raw hmsg he]
    intro i p hi
    rcases i with _ | (_ | (_ | n))
    · simp at hi
    · exact ⟨0, by omega, rfl⟩
    · simp at hi
    · simp at hi
  · rw [handleData_stop_some env st raw e hmsg he]
    intro i p hi
    rcases i with _ | (_ | (_ | n))
    · simp at hi
    · exact ⟨0, by omega, rfl⟩
    · simp at hi
    · simp at hi

/-- Witness for C3: at a concrete connection (`" stop\n"` trims to `stop`),
the stop invocation sits at index 1 and the `ok` write strictly before it. -/
theorem stop_reply_precedes_stop_handler_witness :
    jsTrim " stop\n" = "stop" ∧
    ∃ j : Nat, j < 1 ∧ ((handleData env1 " stop\n" st1).1)[j]? = some (Event.write "ok") :=
  ⟨by decide,
   stop_reply_precedes_stop_handler env1 st1 " stop\n" (by decide) 1 3000 (by decide)⟩

/-- C5: an unknown command is answered `error:unknown-command` with the
state untouched; an exception thrown during dispatch (here: `server.stop`
throwing inside the `stop` branch) is caught and answered `error:<message>`
on that connection with the process exit skipped; and no dispatch ever
closes the control listener. -/
theorem control_errors_isolated (env : SupEnv) (st : SupState) (raw : String) :
    (jsTrim raw ≠ "restart" → jsTrim raw ≠ "stop" → jsTrim raw ≠ "info" →
      handleData env raw st = ([Event.write "error:unknown-command"], st)) ∧
    (∀ e, env.stopThrows = some e → jsTrim raw = "stop" →
      (handleData env raw st).1 =
        [Event.write "ok", Event.stopCalled st.server.port,
          Event.write ("error:" ++ errText e)] ∧
      Event.processExit ∉ (handleData env raw st).1) ∧
    Event.listenerClosed ∉ (handleData env raw st).1 := by
  refine ⟨fun h1 h2 h3 => handleData_unknown env st raw h1 h2 h3, ?_, ?_⟩
  · intro e he hmsg
    rw [handleData_stop_some env st raw e hmsg he]
    exact ⟨rfl, by simp⟩
  · by_cases h1 : jsTrim raw = "restart"
    · rw [handleData_of_trim_restart env st raw h1]
      obtain ⟨rest, hsh, hev⟩ := handleRestart_trace env st
      rw [hsh]
      intro hmem
      rcases List.mem_cons.mp hmem with h | hmem2
      · cases h
      rcases List.mem_cons.mp hmem2 with h | hmem3
      · cases h
      rcases hev _ hmem3 with ⟨sock, h⟩ | ⟨p, u, h⟩ <;> cases h
    · by_cases h2 : jsTrim raw = "stop"
      · rcases he : env.stopThrows with _ | e
        · rw [handleData_stop_none env st raw h2 he]
          simp
        · rw [handleData_stop_some env st raw e h2 he]
          simp
      · by_cases h3 : jsTrim raw = "info"
        · rw [handleData_info env st raw h3]
          simp
        · rw [handleData_unknown env st raw h1 h2 h3]
          simp

/-- Witness for C5: `status` is answered `error:unknown-command`; with a
throwing `server.stop`, `stop` is answered `ok` then `error:boom` and the
process does not exit; no trace closes the listener. -/
theorem control_errors_isolated_witness :
    jsTrim "status" ≠ "restart" ∧ jsTrim "status" ≠ "stop" ∧ jsTrim "status" ≠ "info" ∧
    handleData env1 "status" st1 = ([Event.write "error:unknown-command"], st1) ∧
    env2.stopThrows = some (JsError.err none "boom") ∧
    (handleData env2 "stop" st1).1 =
      [Event.write "ok", Event.stopCalled 3000,
        Event.write ("error:" ++ errText (JsError.err none "boom"))] ∧
    Event.processExit ∉ (handleData env2 "stop" st1).1 ∧
    Event.listenerClosed ∉ (handleData env1 "status" st1).1 :=
  ⟨by decide, by decide, by decide,
   (control_errors_isolated env1 st1 "status").1 (by decide) (by decide) (by decide),
   rfl,
   ((control_errors_isolated env2 st1 "stop").2.1 _ rfl (by decide)).1,
   ((control_errors_isolated env2 st1 "stop").2.1 _ rfl (by decide)).2,
   (control_errors_isolated env1 st1 "status").2.2⟩

/-- C6: a restart never commands a peer — every command the restart trace
sends is an `info` discovery query, never `stop` or `restart` (the re-run
passes `allowRestartExisting = false`); and when the cold-start path does
command a peer (`allowRestartExisting = true`), the command is `restart` and
its target is the control socket of a discovered peer whose id equals the
current identity. -/
theorem restart_never_evicts (env : SupEnv) (st : SupState) :
    (∀ sock msg, Event.sendCmd sock msg ∈ (handleData env "restart" st).1 → msg = "info") ∧
    (∀ (currentId : String) (startPort : Nat) (peers : List (Int × RunningServer))
        (fuel port : Nat) (sock msg : String),
      Event.sendCmd sock msg ∈ (startAwareGo env currentId startPort peers true fuel port).1 →
        msg = "restart" ∧ ∃ q known, peers.lookup q = some known ∧
          known.id = some currentId ∧ sock = known.socket) := by
  constructor
  · intro sock msg hmem
    rw [handleData_of_trim_restart env st "restart" (by decide)] at hmem
    obtain ⟨rest, hsh, hev⟩ := handleRestart_trace env st
    rw [hsh] at hmem
    rcases List.mem_cons.mp hmem with h | hmem2
    · cases h
    rcases List.mem_cons.mp hmem2 with h | hmem3
    · cases h
    rcases hev _ hmem3 with ⟨sock', heq⟩ | ⟨p, u, heq⟩
    · injection heq with h1 h2
    · cases heq
  · intro currentId startPort peers fuel port sock msg hmem
    rcases startAware_events env currentId startPort peers true fuel port _ hmem with
      ⟨p, u, heq⟩ | ⟨-, known, ⟨q, hq⟩, hid, heq | heq⟩
    · cases heq
    · injection heq with h1 h2
      exact ⟨h2, q, known, hq, hid, h1⟩
    · cases heq

/-- Witness for C6: a restart over a directory holding `x.sock` sends it
only `info`; the cold start over a same-identity peer on port 3000 sends
`restart` to that peer's socket. -/
theorem restart_never_evicts_witness :
    Event.sendCmd "/repo/.dev/x.sock" "info" ∈ (handleData env3 "restart" st1).1 ∧
    Event.sendCmd "/repo/.dev/web-abc123.sock" "restart" ∈
      (startAwareGo env1 "web-abc123" 3000 peers1 true 1 3000).1 ∧
    ("restart" = "restart" ∧ ∃ q known, peers1.lookup q = some known ∧
      known.id = some "web-abc123" ∧ "/repo/.dev/web-abc123.sock" = known.socket) :=
  ⟨by decide, by decide,
   (restart_never_evicts env1 st1).2 "web-abc123" 3000 peers1 1 3000
     "/repo/.dev/web-abc123.sock" "restart" (by decide)⟩

/-- Counterexample to C7 as stated: from a fresh orchestrator state, the
first restart request proceeds (and sets the in-flight flag); a second
request arriving while the first is suspended in `stopAll` hits the
`if (restarting) return` guard — it performs nothing and is dropped, so the
two invocations do not both proceed. -/
theorem concurrent_restart_dropped_cex :
    restartAllEnter tst0 = (true, { tst0 with restarting := true }) ∧
    restartAllEnter { tst0 with restarting := true } =
      (false, { tst0 with restarting := true }) ∧
    restartAll { tst0 with restarting := true } = ([], { tst0 with restarting := true }) := by
  refine ⟨by decide, by decide, by decide⟩

/-- C7 (amended): the single-service supervisor has no in-flight guard —
every `restart` command begins by stopping the current server, whatever the
state, so concurrent requests are neither coalesced nor rejected there; the
orchestrator's `restartAll`, by contrast, drops a request that arrives while
its `restarting` flag is set (it returns with no events and no state
change), and only a request seeing the flag clear performs the
stop-all-then-start-all sequence. -/
theorem restart_inflight_guard (env : SupEnv) (st : SupState) (tst : TuiState) :
    (∃ rest, (handleData env "restart" st).1 = Event.stopCalled st.server.port :: rest) ∧
    (tst.restarting = true → restartAll tst = ([], tst)) ∧
    (tst.restarting = false →
      restartAll tst = (stopAllEvents tst ++ startAllEvents tst,
        { tst with restarting := false, children := tst.workspaces }) ∧
      restartAllEnter tst = (true, { tst with restarting := true })) := by
  refine ⟨?_, fun h => by simp [restartAll, h],
    fun h => ⟨by simp [restartAll, h], by simp [restartAllEnter, h]⟩⟩
  rw [handleData_of_trim_restart env st "restart" (by decide)]
  obtain ⟨rest, hsh, -⟩ := handleRestart_trace env st
  exact ⟨_, hsh⟩

/-- Witness for C7 at concrete states: the in-flight state drops the
request; the fresh state performs it. -/
theorem restart_inflight_guard_witness :
    restartAll { tst0 with restarting := true } = ([], { tst0 with restarting := true }) ∧
    restartAll tst0 = (stopAllEvents tst0 ++ startAllEvents tst0,
      { tst0 with restarting := false, children := tst0.workspaces }) ∧
    restartAllEnter tst0 = (true, { tst0 with restarting := true }) :=
  ⟨(restart_inflight_guard env1 st1 { tst0 with restarting := true }).2.1 rfl,
   ((restart_inflight_guard env1 st1 tst0).2.2 rfl).1,
   ((restart_inflight_guard env1 st1 tst0).2.2 rfl).2⟩

/-- A trace with no `writeReply` events has no replies. -/
theorem tuiWritesOf_eq_nil : ∀ tr : List TuiEvent,
    (∀ ev ∈ tr, ∀ r, ev ≠ TuiEvent.writeReply r) → tuiWritesOf tr = [] := by
  intro tr
  induction tr with
  | nil => intro _; rfl
  | cons ev tr ih =>
    intro h
    cases ev with
    | writeReply r => exact absurd rfl (h _ (List.mem_cons_self _ _) r)
    | killChild n => exact ih (fun e he r => h e (List.mem_cons_of_mem _ he) r)
    | spawnChild n => exact ih (fun e he r => h e (List.mem_cons_of_mem _ he) r)
    | openUrl u => exact ih (fun e he r => h e (List.mem_cons_of_mem _ he) r)
    | closeControl => exact ih (fun e he r => h e (List.mem_cons_of_mem _ he) r)
    | removeSocketFile => exact ih (fun e he r => h e (List.mem_cons_of_mem _ he) r)
    | exitProcess => exact ih (fun e he r => h e (List.mem_cons_of_mem _ he) r)

/-- No orchestrator control event is a socket write. -/
theorem handleControlMessage_no_write (msg : String) (st : TuiState) :
    ∀ ev ∈ (handleControlMessage msg st).1, ∀ r, ev ≠ TuiEvent.writeReply r := by
  intro ev hev r
  unfold handleControlMessage at hev
  by_cases h1 : msg = "restart"
  · simp only [h1, if_true] at hev
    unfold restartAll at hev
    by_cases hr : st.restarting
    · simp [hr] at hev
    · simp only [hr, if_false, Bool.false_eq_true] at hev
      rcases List.mem_append.mp hev with h | h
      · obtain ⟨n, -, rfl⟩ := List.mem_map.mp h
        simp
      · obtain ⟨n, -, rfl⟩ := List.mem_map.mp h
        simp
  · simp only [h1, if_false] at hev
    by_cases h2 : msg = "open"
    · simp only [h2, if_true] at hev
      rcases hf : st.workspaces.find? (fun w => (st.latestUrl.lookup w).isSome) with _ | w
      · rw [hf] at hev
        simp at hev
      · rw [hf] at hev
        rcases List.mem_singleton.mp hev with rfl
        simp
    · simp only [h2, if_false] at hev
      by_cases h3 : msg = "stop"
      · simp only [h3, if_true] at hev
        unfold tuiShutdown at hev
        rcases List.mem_cons.mp hev with rfl | hev2
        · simp
        rcases List.mem_cons.mp hev2 with rfl | hev3
        · simp
        rcases List.mem_append.mp hev3 with h | h
        · obtain ⟨n, -, rfl⟩ := List.mem_map.mp h
          simp
        · rcases List.mem_singleton.mp h with rfl
          simp
      · simp [h3] at hev

/-- C8 (amended): the orchestrator's shared control socket dispatches
`restart`, `stop`, and `open` to `restartAll`, `shutdown`, and the browser
launcher, but it writes no reply whatsoever on the socket — neither
`ok:<url>` / `ok` on success nor `error:unknown-command` for other input,
which it silently ignores. -/
theorem tui_control_dispatch_no_reply (raw : String) (st : TuiState) :
    tuiWritesOf (tuiSocketData raw st).1 = [] ∧
    (jsTrim raw = "restart" → tuiSocketData raw st = restartAll st) ∧
    (jsTrim raw = "stop" → tuiSocketData raw st = tuiShutdown st) ∧
    (jsTrim raw = "open" → ∀ w,
      st.workspaces.find? (fun w => (st.latestUrl.lookup w).isSome) = some w →
      tuiSocketData raw st = ([TuiEvent.openUrl ((st.latestUrl.lookup w).getD "")], st)) ∧
    (jsTrim raw ≠ "restart" → jsTrim raw ≠ "open" → jsTrim raw ≠ "stop" →
      tuiSocketData raw st = ([], st)) := by
  refine ⟨tuiWritesOf_eq_nil _ (handleControlMessage_no_write (jsTrim raw) st), ?_, ?_, ?_, ?_⟩
  · intro h
    simp [tuiSocketData, handleControlMessage, h]
  · intro h
    simp [tuiSocketData, handleControlMessage, h]
  · intro h w hw
    simp [tuiSocketData, handleControlMessage, h, hw]
  · intro h1 h2 h3
    simp [tuiSocketData, handleControlMessage, h1, h2, h3]

/-- Counterexample to C8 as stated: on the orchestrator's socket, an
unknown command produces no events at all — in particular no
`error:unknown-command` reply — and a `restart` performs the restart without
writing any `ok:<url>` reply. -/
theorem tui_control_no_reply_cex :
    tuiSocketData "bogus" tst8 = ([], tst8) ∧
    (tuiSocketData "restart" tst8).1 =
      [TuiEvent.killChild "web", TuiEvent.spawnChild "web"] ∧
    tuiWritesOf (tuiSocketData "restart" tst8).1 = [] := by
  refine ⟨by decide, by decide, by decide⟩

/-- Witness for C8 at concrete inputs. -/
theorem tui_control_dispatch_no_reply_witness :
    tuiWritesOf (tuiSocketData "restart" tst8).1 = [] ∧
    jsTrim "restart" = "restart" ∧ tuiSocketData "restart" tst8 = restartAll tst8 ∧
    tst8.workspaces.find? (fun w => (tst8.latestUrl.lookup w).isSome) = some "web" ∧
    tuiSocketData "open" tst8 =
      ([TuiEvent.openUrl ((tst8.latestUrl.lookup "web").getD "")], tst8) ∧
    tuiSocketData "status" tst8 = ([], tst8) :=
  ⟨(tui_control_dispatch_no_reply "restart" tst8).1,
   by decide,
   (tui_control_dispatch_no_reply "restart" tst8).2.1 (by decide),
   by decide,
   (tui_control_dispatch_no_reply "open" tst8).2.2.2.1 (by decide) "web" (by decide),
   (tui_control_dispatch_no_reply "status" tst8).2.2.2.2 (by decide) (by decide) (by decide)⟩

/-- Character code units determine the character. -/
theorem char_toNat_injective : Function.Injective Char.toNat := by
  intro a b h
  exact Char.eq_of_val_eq (UInt32.ext h)

/-- The code-unit sequence determines the string. -/
theorem codeUnits_injective : Function.Injective codeUnits := by
  intro a b h
  have hd : a.data = b.data := List.map_injective_iff.mpr char_toNat_injective h
  cases a
  cases b
  exact congrArg String.mk hd

/-- The sort output is a permutation of its input. -/
theorem sortedDirs_perm (l : List String) : (sortedDirs l).Perm l :=
  List.perm_insertionSort dirLe l

/-- The sort output is sorted under the code-unit comparison. -/
theorem sortedDirs_sorted (l : List String) : List.Sorted dirLe (sortedDirs l) := by
  haveI : IsTotal String dirLe := ⟨fun a b => le_total (codeUnits a) (codeUnits b)⟩
  haveI : IsTrans String dirLe := ⟨fun a b c hab hbc => le_trans hab hbc⟩
  exact List.sorted_insertionSort dirLe l

/-- Sorting is invariant under permutation of the input. -/
theorem sortedDirs_eq_of_perm (l1 l2 : List String) (h : l1.Perm l2) :
    sortedDirs l1 = sortedDirs l2 := by
  haveI : IsAntisymm String dirLe :=
    ⟨fun a b hab hba => codeUnits_injective (le_antisymm hab hba)⟩
  exact List.eq_of_perm_of_sorted (((sortedDirs_perm l1).trans h).trans
    (sortedDirs_perm l2).symm) (sortedDirs_sorted l1) (sortedDirs_sorted l2)

/-- C9 (amended): two workspace lists that are permutations of one another
— in particular two duplicate-free lists with the same directory set —
produce the same socket id and the same control socket path, because the
identity hashes the `'|'`-join of the sorted list. (Distinct directory sets
are not guaranteed distinct paths; see the counterexample.) -/
theorem socketId_perm_invariant (l1 l2 : List String) :
    (l1.Perm l2 → tuiSocketId l1 = tuiSocketId l2 ∧
      ∀ root, tuiControlSocketPath root l1 = tuiControlSocketPath root l2) ∧
    (l1.Nodup → l2.Nodup → l1.toFinset = l2.toFinset →
      tuiSocketId l1 = tuiSocketId l2 ∧
      ∀ root, tuiControlSocketPath root l1 = tuiControlSocketPath root l2) := by
  have main : l1.Perm l2 → tuiSocketId l1 = tuiSocketId l2 ∧
      ∀ root, tuiControlSocketPath root l1 = tuiControlSocketPath root l2 := by
    intro h
    have hk : socketKey l1 = socketKey l2 := by
      unfold socketKey
      rw [sortedDirs_eq_of_perm l1 l2 h]
    constructor
    · unfold tuiSocketId
      rw [hk]
    · intro root
      unfold tuiControlSocketPath tuiSocketId
      rw [hk]
  exact ⟨main, fun h1 h2 hset => main (List.perm_of_nodup_nodup_toFinset_eq h1 h2 hset)⟩

/-- Counterexample to C9 as stated: the singleton list holding the one
directory `a|b` and the two-element list of directories `a` and `b` are
different directory sets, yet their sorted `'|'`-joins coincide, so they get
the same socket id and the same control socket path. -/
theorem socketId_distinct_sets_collide_cex :
    ("a|b" ∉ (["a", "b"] : List String)) ∧ ((["a|b"] : List String) ≠ ["a", "b"]) ∧
    socketKey ["a|b"] = socketKey ["a", "b"] ∧
    tuiControlSocketPath "/repo" ["a|b"] = tuiControlSocketPath "/repo" ["a", "b"] := by
  refine ⟨by decide, by decide, by decide, by decide⟩

/-- Witness for C9 at concrete lists. -/
theorem socketId_perm_invariant_witness :
    (["b", "a"] : List String).Perm ["a", "b"] ∧
    tuiSocketId ["b", "a"] = tuiSocketId ["a", "b"] ∧
    (["b", "a"] : List String).Nodup ∧ (["a", "b"] : List String).Nodup ∧
    (["b", "a"] : List String).toFinset = (["a", "b"] : List String).toFinset ∧
    tuiControlSocketPath "/repo" ["b", "a"] = tuiControlSocketPath "/repo" ["a", "b"] :=
  ⟨by decide,
   ((socketId_perm_invariant ["b", "a"] ["a", "b"]).1 (by decide)).1,
   by decide, by decide, by decide,
   ((socketId_perm_invariant ["b", "a"] ["a", "b"]).1 (by decide)).2 "/repo"⟩

end DevControl
